import Mathlib

/-!
Shallow embedding of a minimal HTTP/1.1 server (`src/main.rs`) and proofs
about its request parser, response builder and router.

Modelling conventions:
* Rust `String` / `&str` values are Lean `String`s; raw byte sequences
  (request bodies, file contents, serialized responses) are `List Nat`,
  each element standing for one byte.
* `HashMap<String, String>` is modelled as an association list with
  insert-replaces semantics; iteration order is the list order (the map's
  iteration order is unspecified in the source).
* I/O streams are modelled explicitly: the line-oriented part of a
  connection is a `List LineRead` (each element the outcome of one
  `read_line` call) and the byte-exact part a `List Nat`.
* Fallible operations return `Option`/`Except`; `none` models a fatal
  error for the connection (a propagated `Err` or a panic).
-/

/-- HTTP methods supported by the server (`enum Method`). -/
inductive Method where
  | get
  | post
  | put
deriving DecidableEq, Repr

/-- Byte-level check that `p.data` is a prefix of the character list `l`,
modelling Rust `str::starts_with` on the underlying characters. -/
def listPref : List Char → List Char → Bool
  | [], _ => true
  | _ :: _, [] => false
  | a :: as, b :: bs => a == b && listPref as bs

/-- Model of Rust `str::starts_with`. -/
def strStartsWith (s p : String) : Bool :=
  listPref p.data s.data

/-- Model of Rust `str::strip_prefix`: `some` of the remainder when `p`
prefixes `s`, otherwise `none`. -/
def stripPref (s p : String) : Option String :=
  if listPref p.data s.data then some (String.mk (s.data.drop p.data.length)) else none

/-- Model of Rust `str::to_lowercase` (character-wise lowercasing; the
method tokens compared against are ASCII). -/
def strToLower (s : String) : String :=
  String.mk (s.data.map Char.toLower)

/-- Model of `impl From<&str> for Method`: the token is lowercased and
matched against get/post/put; anything else panics (`none`). -/
def parseMethod (s : String) : Option Method :=
  if strToLower s = "get" then some Method.get
  else if strToLower s = "post" then some Method.post
  else if strToLower s = "put" then some Method.put
  else none

/-- Accumulator-style splitting on whitespace runs, discarding empty
tokens, over the character list. -/
def splitWsAux : List Char → List Char → List String
  | [], acc => if acc.isEmpty then [] else [String.mk acc.reverse]
  | c :: rest, acc =>
    if c.isWhitespace then
      if acc.isEmpty then splitWsAux rest []
      else String.mk acc.reverse :: splitWsAux rest []
    else splitWsAux rest (c :: acc)

/-- Model of Rust `str::split_whitespace`: split on whitespace characters
and discard empty tokens. -/
def splitWhitespace (s : String) : List String :=
  splitWsAux s.data []

/-- Parsing of the request line (`Request::parse`, first lines): it must
split into exactly three whitespace-separated tokens (`collect_tuple`,
panicking otherwise), and the method token must name a known method. -/
def parseRequestLine (line : String) : Option (Method × String) :=
  match splitWhitespace line with
  | [m, p, _v] => (parseMethod m).map (fun meth => (meth, p))
  | _ => none

/-- Header maps (`HashMap<String, String>`) as association lists. -/
abbrev Headers := List (String × String)

/-- Model of `HashMap::get`. -/
def getHeader : Headers → String → Option String
  | [], _ => none
  | (k', v) :: rest, k => if k' = k then some v else getHeader rest k

/-- Model of `HashMap::insert`: replace the value of an existing key,
otherwise append the new binding. -/
def insertHeader : Headers → String → String → Headers
  | [], k, v => [(k, v)]
  | (k', v') :: rest, k, v =>
    if k' = k then (k, v) :: rest else (k', v') :: insertHeader rest k v

/-- Model of `HashMap::entry(k).or_insert(v)`: insert only when the key is
absent. -/
def insertIfAbsent (hs : Headers) (k v : String) : Headers :=
  if (getHeader hs k).isSome then hs else hs ++ [(k, v)]

/-- Find the first occurrence of `pat` in a character list and split
around it (model of Rust `str::split_once`). -/
def findSplit (pat : List Char) : List Char → Option (List Char × List Char)
  | [] => if pat.isEmpty then some ([], []) else none
  | c :: rest =>
    if listPref pat (c :: rest) then some ([], (c :: rest).drop pat.length)
    else
      match findSplit pat rest with
      | some (pre, post) => some (c :: pre, post)
      | none => none

/-- Model of Rust `str::split_once`. -/
def splitOnce (s pat : String) : Option (String × String) :=
  (findSplit pat.data s.data).map (fun pr => (String.mk pr.1, String.mk pr.2))

/-- Model of Rust `str::trim`: drop whitespace from both ends. -/
def strTrim (s : String) : String :=
  String.mk (((s.data.dropWhile Char.isWhitespace).reverse.dropWhile Char.isWhitespace).reverse)

/-- Accumulator-style splitting at every occurrence of a separator
character (keeping empty pieces), over the character list. -/
def splitSepAux (sep : Char) : List Char → List Char → List String
  | [], acc => [String.mk acc.reverse]
  | c :: rest, acc =>
    if c = sep then String.mk acc.reverse :: splitSepAux sep rest []
    else splitSepAux sep rest (c :: acc)

/-- Model of Rust `str::split(sep)` with a character separator: adjacent
separators and separators at the ends yield empty pieces; the empty
string yields one empty piece. -/
def rustSplitChar (s : String) (sep : Char) : List String :=
  splitSepAux sep s.data []

/-- Outcome of one `read_line` call on the connection's buffered reader:
a line was read (terminator included when present), end of input
(`Ok(0)`), or an I/O error (`Err`). -/
inductive LineRead where
  | line (s : String)
  | eof
  | ioError
deriving DecidableEq, Repr

/-- The header-reading loop of `Request::parse`
(`while let Ok(n) = buff.read_line(..)`): stops silently at end of input
or at an I/O error (the `while let` pattern fails) or at the CRLF blank
line; a header line without a `": "` separator panics (`none`); header
values are trimmed; duplicate names overwrite (`HashMap::insert`).
Returns the headers collected and the unconsumed line reads. -/
def readHeadersAux (acc : Headers) : List LineRead → Option (Headers × List LineRead)
  | [] => some (acc, [])
  | LineRead.eof :: rest => some (acc, rest)
  | LineRead.ioError :: rest => some (acc, rest)
  | LineRead.line s :: rest =>
    if s = "\r\n" then some (acc, rest)
    else
      match splitOnce s ": " with
      | none => none
      | some (hname, hvalue) => readHeadersAux (insertHeader acc hname (strTrim hvalue)) rest

/-- Model of Rust `usize::from_str` on an already-trimmed string: an
optional leading '+', then one or more ASCII digits, value below 2^64. -/
def parseDigits (l : List Char) : Option Nat :=
  if l.isEmpty then none
  else if l.all (fun c => c.isDigit) then
    let n := l.foldl (fun acc c => acc * 10 + (c.toNat - 48)) 0
    if n < 18446744073709551616 then some n else none
  else none

/-- Model of `str::parse::<usize>()`. -/
def rustParseUsize (s : String) : Option Nat :=
  match s.data with
  | '+' :: rest => parseDigits rest
  | l => parseDigits l

/-- The declared body length (`Request::parse`, body section): the
`Content-Length` header parsed as `usize`, defaulting to 0 when the
header is absent (`map_or`) or unparsable (`unwrap_or(0)`). -/
def contentLength (hs : Headers) : Nat :=
  match getHeader hs "Content-Length" with
  | none => 0
  | some v => (rustParseUsize v).getD 0

/-- The body-reading step of `Request::parse`: for POST/PUT, `read_exact`
of `contentLength` bytes (failing fatally when the stream is shorter);
for GET no body bytes are read. Returns the body and the remaining
stream. -/
def readBody (meth : Method) (hs : Headers) (stream : List Nat) :
    Option (List Nat × List Nat) :=
  if meth = Method.post ∨ meth = Method.put then
    let n := contentLength hs
    if n ≤ stream.length then some (stream.take n, stream.drop n) else none
  else some ([], stream)

/-- A parsed HTTP request (`struct Request`). -/
structure Request where
  path : String
  headers : Headers
  method : Method
  body : List Nat
deriving DecidableEq, Repr

/-- Full model of `Request::parse`: one request line, then the header
loop, then the body read. The first `read_line` result must be an actual
line: an `Err` propagates (`?`) and an empty read yields a line that
cannot split into three tokens. -/
def parseRequest (lines : List LineRead) (bytes : List Nat) : Option Request :=
  match lines with
  | LineRead.line l :: rest =>
    match parseRequestLine l with
    | none => none
    | some (meth, path) =>
      match readHeadersAux [] rest with
      | none => none
      | some (hdrs, _) =>
        match readBody meth hdrs bytes with
        | none => none
        | some (body, _) => some { path := path, headers := hdrs, method := meth, body := body }
  | _ => none

/-- Model of `Request::supported_encodings`: the `Accept-Encoding` header
split on ',' with no trimming, or the empty list when absent. -/
def supportedEncodings (req : Request) : List String :=
  match getHeader req.headers "Accept-Encoding" with
  | none => []
  | some v => rustSplitChar v ','

/-- UTF-8 encoding of one character (0x00–0x10FFFF, 1 to 4 bytes). -/
def charUtf8 (c : Char) : List Nat :=
  let n := c.toNat
  if n < 128 then [n]
  else if n < 2048 then [192 + n / 64, 128 + n % 64]
  else if n < 65536 then [224 + n / 4096, 128 + (n / 64) % 64, 128 + n % 64]
  else [240 + n / 262144, 128 + (n / 4096) % 64, 128 + (n / 64) % 64, 128 + n % 64]

/-- The byte sequence of a Rust `String`: the UTF-8 encoding of its
characters. -/
def utf8Encode (s : String) : List Nat :=
  s.data.foldr (fun c acc => charUtf8 c ++ acc) []

/-- Is `b` a UTF-8 continuation byte (0x80–0xBF)? -/
def utf8Cont (b : Nat) : Bool :=
  128 ≤ b && b ≤ 191

/-- UTF-8 validity of a byte sequence, following the standard table
(rejecting overlong forms, surrogates and values above U+10FFFF), as
Rust's `String::from_utf8` / `read_to_string` validation does. -/
def validUtf8 : List Nat → Bool
  | [] => true
  | b :: rest =>
    if b < 128 then validUtf8 rest
    else if 194 ≤ b && b ≤ 223 then
      match rest with
      | c :: r => utf8Cont c && validUtf8 r
      | [] => false
    else if b = 224 then
      match rest with
      | c :: d :: r => (160 ≤ c && c ≤ 191) && utf8Cont d && validUtf8 r
      | _ => false
    else if (225 ≤ b && b ≤ 236) || b = 238 || b = 239 then
      match rest with
      | c :: d :: r => utf8Cont c && utf8Cont d && validUtf8 r
      | _ => false
    else if b = 237 then
      match rest with
      | c :: d :: r => (128 ≤ c && c ≤ 159) && utf8Cont d && validUtf8 r
      | _ => false
    else if b = 240 then
      match rest with
      | c :: d :: e :: r => (144 ≤ c && c ≤ 191) && utf8Cont d && utf8Cont e && validUtf8 r
      | _ => false
    else if 241 ≤ b && b ≤ 243 then
      match rest with
      | c :: d :: e :: r => utf8Cont c && utf8Cont d && utf8Cont e && validUtf8 r
      | _ => false
    else if b = 244 then
      match rest with
      | c :: d :: e :: r => (128 ≤ c && c ≤ 143) && utf8Cont d && utf8Cont e && validUtf8 r
      | _ => false
    else false

/-- State of one filesystem entry, as seen by the file-serving route. -/
inductive FsEntry where
  | missing
  | file (bytes : List Nat)
  | unreadable (msg : String)
deriving DecidableEq, Repr

/-- The filesystem environment of one request: the entry at each path,
and whether a write to each path would succeed. -/
structure Fs where
  entries : String → FsEntry
  writeOk : String → Bool

/-- Model of `tokio::fs::try_exists`. -/
def tryExists (fs : Fs) (p : String) : Bool :=
  match fs.entries p with
  | FsEntry.missing => false
  | _ => true

/-- The error message `tokio::fs::read_to_string` reports for invalid
UTF-8 file contents. -/
def utf8ErrMsg : String := "stream did not contain valid UTF-8"

/-- Model of `tokio::fs::read_to_string`: reads the file's bytes and
validates them as UTF-8; a success yields a `String` whose byte content
is exactly the file's bytes, so the result is represented by those
bytes. -/
def readToString (fs : Fs) (p : String) : Except String (List Nat) :=
  match fs.entries p with
  | FsEntry.missing => Except.error "No such file or directory (os error 2)"
  | FsEntry.file bytes =>
    if validUtf8 bytes then Except.ok bytes else Except.error utf8ErrMsg
  | FsEntry.unreadable msg => Except.error msg

/-- The accumulating part of `struct Response`: status code, headers and
body (the stream and request references are passed separately). -/
structure ResponseData where
  status : Nat
  headers : Headers
  body : List Nat
deriving DecidableEq, Repr

/-- The server configuration (`struct Config`). -/
structure Config where
  address : String
  port : Nat
  static_files : Option String

/-- The status-line text of `Response::send`: the fixed code → reason
mapping; any other code panics (`none`). -/
def statusText (n : Nat) : Option String :=
  if n = 200 then some "200 OK"
  else if n = 201 then some "201 Created"
  else if n = 400 then some "400 Bad Request"
  else if n = 404 then some "404 Not Found"
  else if n = 500 then some "500 Internal Server Error"
  else none

/-- Model of `Response::append_own_headers`: when the request accepts
gzip, add `Content-Encoding: gzip` unless already set; the body is left
untouched. -/
def appendOwnHeaders (req : Request) (r : ResponseData) : ResponseData :=
  if (supportedEncodings req).contains "gzip" then
    { r with headers := insertIfAbsent r.headers "Content-Encoding" "gzip" }
  else r

/-- The bytes written by the header loop of `Response::send`: each
binding as `Name: Value\r\n`, in the order of the given list. The
association-list order is one fixed enumeration of the map; the source's
`HashMap` iteration order is unspecified per map instance, which
`sendResponseWithOrder` models by taking the order as a parameter. -/
def headersBytes : Headers → List Nat
  | [] => []
  | (n, v) :: rest => utf8Encode (n ++ ": " ++ v ++ "\r\n") ++ headersBytes rest

/-- The write sequence of `Response::send` after the status text is
known: status line, headers, then either `Content-Length: <n>\r\n\r\n`
followed by the body, or `Content-Length: 0\r\n\r\n` when the body is
empty. -/
def serializeResponse (st : String) (r : ResponseData) : List Nat :=
  utf8Encode ("HTTP/1.1 " ++ st ++ "\r\n") ++
  headersBytes r.headers ++
  (if r.body.isEmpty then utf8Encode "Content-Length: 0\r\n\r\n"
   else utf8Encode ("Content-Length: " ++ toString r.body.length ++ "\r\n\r\n") ++ r.body)

/-- Model of `Response::send`: resolve the status text (panicking on an
unknown code), apply `append_own_headers`, then serialize. -/
def sendResponse (req : Request) (r : ResponseData) : Option (List Nat) :=
  match statusText r.status with
  | none => none
  | some st => some (serializeResponse st (appendOwnHeaders req r))

/-- The method branch of the `/files/` route of `handle_connection`,
given the joined path `fpath = root ++ "/" ++ entity`: GET checks
existence (404 when absent) then `read_to_string` (200 on success, 500
with a message on failure); POST writes the request body (fatal `none`
on a write failure, 201 otherwise); any other method answers 400. -/
def filesHandler (req : Request) (fpath : String) (fs : Fs) :
    Option (ResponseData × Fs) :=
  if req.method = Method.get then
    if tryExists fs fpath = false then
      some ({ status := 404, headers := [], body := [] }, fs)
    else
      match readToString fs fpath with
      | Except.ok bytes =>
        some ({ status := 200,
                headers := [("Content-Type", "application/octet-stream")],
                body := bytes }, fs)
      | Except.error err =>
        some ({ status := 500, headers := [],
                body := utf8Encode ("failed to read file: " ++ err) }, fs)
  else if req.method = Method.post then
    if fs.writeOk fpath then
      some ({ status := 201, headers := [], body := [] },
            { fs with entries := fun p =>
                if p = fpath then FsEntry.file req.body else fs.entries p })
    else none
  else some ({ status := 400, headers := [], body := [] }, fs)

/-- The routing and handler logic of `handle_connection` after a request
has been parsed: produces the `ResponseData` handed to `send` and the
resulting filesystem, or `none` for a fatal connection error (a
propagated `?` or a panic). -/
def handleRequest (req : Request) (cfg : Config) (fs : Fs) :
    Option (ResponseData × Fs) :=
  if req.path = "/" then
    some ({ status := 200, headers := [], body := [] }, fs)
  else if req.path = "/user-agent" then
    let ua := (getHeader req.headers "User-Agent").getD ""
    some ({ status := 200, headers := [("Content-Type", "text/plain")],
            body := utf8Encode ua }, fs)
  else if strStartsWith req.path "/echo/" then
    match stripPref req.path "/echo/" with
    | none => none
    | some payload =>
      some ({ status := 200, headers := [("Content-Type", "text/plain")],
              body := utf8Encode payload }, fs)
  else if strStartsWith req.path "/files/" then
    match cfg.static_files with
    | none => some ({ status := 404, headers := [], body := [] }, fs)
    | some root =>
      match stripPref req.path "/files/" with
      | none => none
      | some entity => filesHandler req (root ++ "/" ++ entity) fs
  else
    some ({ status := 404, headers := [], body := [] }, fs)

/-- One full dispatch-and-send round of `handle_connection` for an
already-parsed request: the serialized response bytes and the resulting
filesystem. -/
def respond (req : Request) (cfg : Config) (fs : Fs) :
    Option (List Nat × Fs) :=
  match handleRequest req cfg fs with
  | none => none
  | some (r, fs2) =>
    match sendResponse req r with
    | none => none
    | some bytes => some (bytes, fs2)

/-- The header line emitted for one binding by the header loop of
`Response::send` (`"{hname}: {hvalue}\r\n"`). -/
def headerLine (p : String × String) : String :=
  p.1 ++ ": " ++ p.2 ++ "\r\n"

/-- Model of the write sequence of `Response::send` with the HashMap's
per-connection iteration order made explicit: `order` is the sequence in
which the final header map's bindings are emitted. The source iterates a
fresh std `HashMap` per connection, whose iteration order is unspecified
and varies per map instance, so `order` may be any permutation of the
map's bindings; `r` is the response after `append_own_headers`. -/
def sendResponseWithOrder (r : ResponseData) (order : Headers) : Option (List Nat) :=
  match statusText r.status with
  | none => none
  | some st =>
    some (utf8Encode ("HTTP/1.1 " ++ st ++ "\r\n") ++
      headersBytes order ++
      (if r.body.isEmpty then utf8Encode "Content-Length: 0\r\n\r\n"
       else utf8Encode ("Content-Length: " ++ toString r.body.length ++ "\r\n\r\n") ++ r.body))

/-- One dispatch-and-send round of `handle_connection` with the header
iteration order of the response's `HashMap` made explicit (the response
bytes alone; the route's `ResponseData` is deterministic, the emission
order of its headers is not). -/
def respondBytesWithOrder (req : Request) (cfg : Config) (fs : Fs) (order : Headers) :
    Option (List Nat) :=
  match handleRequest req cfg fs with
  | none => none
  | some (r, _) => sendResponseWithOrder (appendOwnHeaders req r) order

/-- The byte sequence the C1 spec sentence describes, following its words:
status line, then the accumulated headers, then a blank line, then the
`Content-Length` header, then the body. (Stated for comparison with the
code's `serializeResponse`; the code emits the blank line after the
`Content-Length` header, not before it.) -/
def claimedSendBytes (st : String) (hs : Headers) (body : List Nat) : List Nat :=
  utf8Encode ("HTTP/1.1 " ++ st ++ "\r\n") ++
  headersBytes hs ++
  utf8Encode "\r\n" ++
  utf8Encode ("Content-Length: " ++ toString body.length ++ "\r\n") ++
  body

/-! ### Helper lemmas -/

theorem utf8Encode_append (s t : String) :
    utf8Encode (s ++ t) = utf8Encode s ++ utf8Encode t := by
  unfold utf8Encode
  rw [String.data_append]
  induction s.data with
  | nil => simp
  | cons c cs ih => simp [ih]

theorem listPref_app (p l : List Char) : listPref p (p ++ l) = true := by
  induction p with
  | nil => rfl
  | cons a as ih => simp [listPref, ih]

theorem stripPref_app (p s : String) : stripPref (p ++ s) p = some s := by
  unfold stripPref
  rw [String.data_append, if_pos (listPref_app _ _), List.drop_left]

theorem strStartsWith_app (p s : String) : strStartsWith (p ++ s) p = true := by
  unfold strStartsWith
  rw [String.data_append]
  exact listPref_app _ _

theorem stripPref_some (s p : String) (h : strStartsWith s p = true) :
    (stripPref s p).isSome := by
  unfold strStartsWith at h
  simp [stripPref, h]

theorem echo_ne_root (S : String) : ("/echo/" ++ S) ≠ "/" := by
  intro h
  have h2 := congrArg String.data h
  rw [String.data_append] at h2
  rw [show "/echo/".data = ['/', 'e', 'c', 'h', 'o', '/'] from rfl,
      show "/".data = ['/'] from rfl] at h2
  simp at h2

theorem echo_ne_ua (S : String) : ("/echo/" ++ S) ≠ "/user-agent" := by
  intro h
  have h2 := congrArg String.data h
  rw [String.data_append] at h2
  rw [show "/echo/".data = ['/', 'e', 'c', 'h', 'o', '/'] from rfl,
      show "/user-agent".data = ['/', 'u', 's', 'e', 'r', '-', 'a', 'g', 'e', 'n', 't'] from rfl] at h2
  simp at h2

theorem files_ne_root (E : String) : ("/files/" ++ E) ≠ "/" := by
  intro h
  have h2 := congrArg String.data h
  rw [String.data_append] at h2
  rw [show "/files/".data = ['/', 'f', 'i', 'l', 'e', 's', '/'] from rfl,
      show "/".data = ['/'] from rfl] at h2
  simp at h2

theorem files_ne_ua (E : String) : ("/files/" ++ E) ≠ "/user-agent" := by
  intro h
  have h2 := congrArg String.data h
  rw [String.data_append] at h2
  rw [show "/files/".data = ['/', 'f', 'i', 'l', 'e', 's', '/'] from rfl,
      show "/user-agent".data = ['/', 'u', 's', 'e', 'r', '-', 'a', 'g', 'e', 'n', 't'] from rfl] at h2
  simp at h2

theorem files_not_echo (E : String) :
    strStartsWith ("/files/" ++ E) "/echo/" = false := by
  unfold strStartsWith
  rw [String.data_append]
  rw [show "/echo/".data = ['/', 'e', 'c', 'h', 'o', '/'] from rfl,
      show "/files/".data = ['/', 'f', 'i', 'l', 'e', 's', '/'] from rfl]
  simp +decide [listPref]

theorem handleRequest_echo (S : String) (req : Request) (cfg : Config) (fs : Fs)
    (hp : req.path = "/echo/" ++ S) :
    handleRequest req cfg fs =
      some ({ status := 200, headers := [("Content-Type", "text/plain")],
              body := utf8Encode S }, fs) := by
  unfold handleRequest
  rw [hp, if_neg (echo_ne_root S), if_neg (echo_ne_ua S),
      if_pos (strStartsWith_app "/echo/" S), stripPref_app]

theorem handleRequest_files (E : String) (req : Request) (cfg : Config) (fs : Fs)
    (root : String) (hp : req.path = "/files/" ++ E)
    (hr : cfg.static_files = some root) :
    handleRequest req cfg fs = filesHandler req (root ++ "/" ++ E) fs := by
  unfold handleRequest
  rw [hp, if_neg (files_ne_root E), if_neg (files_ne_ua E)]
  rw [show strStartsWith ("/files/" ++ E) "/echo/" = false from files_not_echo E]
  simp only [Bool.false_eq_true, if_false]
  rw [if_pos (strStartsWith_app "/files/" E), hr, stripPref_app]

theorem getHeader_app_right (hs : Headers) (k v : String)
    (h : getHeader hs k = none) : getHeader (hs ++ [(k, v)]) k = some v := by
  induction hs with
  | nil => simp [getHeader]
  | cons a rest ih =>
    obtain ⟨k1, v1⟩ := a
    rw [List.cons_append]
    by_cases hk : k1 = k
    · rw [show getHeader ((k1, v1) :: rest) k = if k1 = k then some v1 else getHeader rest k from rfl,
          if_pos hk] at h
      cases h
    · rw [show getHeader ((k1, v1) :: rest) k = if k1 = k then some v1 else getHeader rest k from rfl,
          if_neg hk] at h
      rw [show getHeader ((k1, v1) :: (rest ++ [(k, v)])) k =
            if k1 = k then some v1 else getHeader (rest ++ [(k, v)]) k from rfl,
          if_neg hk]
      exact ih h

theorem getHeader_insertIfAbsent_self (hs : Headers) (k v : String)
    (h : getHeader hs k = none) :
    getHeader (insertIfAbsent hs k v) k = some v := by
  unfold insertIfAbsent
  rw [h]
  simp only [Option.isSome_none, Bool.false_eq_true, if_false]
  exact getHeader_app_right hs k v h

theorem appendOwnHeaders_body (req : Request) (r : ResponseData) :
    (appendOwnHeaders req r).body = r.body := by
  unfold appendOwnHeaders
  split <;> rfl

theorem appendOwnHeaders_of_set (req : Request) (r : ResponseData)
    (h : (getHeader r.headers "Content-Encoding").isSome) :
    appendOwnHeaders req r = r := by
  unfold appendOwnHeaders insertIfAbsent
  rw [if_pos h]
  split <;> rfl

theorem serialize_shape (st : String) (r : ResponseData) :
    serializeResponse st r =
      utf8Encode ("HTTP/1.1 " ++ st ++ "\r\n") ++
      headersBytes r.headers ++
      utf8Encode ("Content-Length: " ++ toString r.body.length ++ "\r\n") ++
      utf8Encode "\r\n" ++ r.body := by
  unfold serializeResponse
  rcases hb : r.body with _ | ⟨b, bs⟩
  · simp only [List.isEmpty_nil, if_true, List.length_nil]
    rw [show ("Content-Length: " ++ toString (0 : Nat) ++ "\r\n") = "Content-Length: 0\r\n" from rfl]
    rw [show (utf8Encode "Content-Length: 0\r\n\r\n") =
          utf8Encode "Content-Length: 0\r\n" ++ utf8Encode "\r\n" from by decide]
    simp [List.append_assoc]
  · simp only [List.isEmpty_cons, if_false]
    rw [show ("Content-Length: " ++ toString (b :: bs).length ++ "\r\n\r\n") =
          ("Content-Length: " ++ toString (b :: bs).length ++ "\r\n") ++ "\r\n" from by
        rw [show ("\r\n\r\n" : String) = "\r\n" ++ "\r\n" from by decide, ← String.append_assoc]]
    rw [utf8Encode_append ("Content-Length: " ++ toString (b :: bs).length ++ "\r\n") "\r\n"]
    simp [List.append_assoc]

theorem handleRequest_no_ce (req : Request) (cfg : Config) (fs : Fs)
    (r : ResponseData) (fs2 : Fs)
    (h : handleRequest req cfg fs = some (r, fs2)) :
    getHeader r.headers "Content-Encoding" = none := by
  unfold handleRequest filesHandler at h
  repeat' split at h
  all_goals first
    | (exact Option.noConfusion h)
    | (rw [Option.some.injEq, Prod.mk.injEq] at h
       obtain ⟨hr, -⟩ := h
       rw [← hr])
  all_goals rfl

theorem handleRequest_none_root (req : Request) (cfg : Config) (fs : Fs)
    (h : cfg.static_files = none) :
    handleRequest req cfg fs =
      (if req.path = "/" then
        some ({ status := 200, headers := [], body := [] }, fs)
      else if req.path = "/user-agent" then
        some ({ status := 200, headers := [("Content-Type", "text/plain")],
                body := utf8Encode ((getHeader req.headers "User-Agent").getD "") }, fs)
      else if strStartsWith req.path "/echo/" then
        match stripPref req.path "/echo/" with
        | none => none
        | some payload =>
          some ({ status := 200, headers := [("Content-Type", "text/plain")],
                  body := utf8Encode payload }, fs)
      else if strStartsWith req.path "/files/" then
        some ({ status := 404, headers := [], body := [] }, fs)
      else
        some ({ status := 404, headers := [], body := [] }, fs)) := by
  unfold handleRequest
  rw [h]

/-- C1 counterexample: the claim orders the blank line before the
`Content-Length` header, but `send()` writes `Content-Length: <n>\r\n\r\n`
(blank line after). At status 200 with no accumulated headers and body
"a", the actual bytes differ from the claimed sequence (and with no
accumulated headers there is no header-order freedom at all). -/
theorem c1_send_order_counterexample :
    sendResponse { path := "/", headers := [], method := Method.get, body := [] }
        { status := 200, headers := [], body := utf8Encode "a" } ≠
      some (claimedSendBytes "200 OK" [] (utf8Encode "a")) := by
  decide

/-- C1 (amended): `send()` writes the status line with the fixed
code→reason mapping, then every accumulated header, then a
`Content-Length` header equal to the body's byte length (also when the
body is empty, where it reads 0), then a blank line, then the body. -/
theorem c1_send_layout :
    (∀ (req : Request) (r : ResponseData) (st : String),
      statusText r.status = some st →
      sendResponse req r = some (
        utf8Encode ("HTTP/1.1 " ++ st ++ "\r\n") ++
        headersBytes (appendOwnHeaders req r).headers ++
        utf8Encode ("Content-Length: " ++ toString r.body.length ++ "\r\n") ++
        utf8Encode "\r\n" ++
        r.body))
    ∧ statusText 200 = some "200 OK"
    ∧ statusText 201 = some "201 Created"
    ∧ statusText 400 = some "400 Bad Request"
    ∧ statusText 404 = some "404 Not Found"
    ∧ statusText 500 = some "500 Internal Server Error"
    ∧ (∀ n : Nat, n ∉ ([200, 201, 400, 404, 500] : List Nat) → statusText n = none) := by
  refine ⟨?_, rfl, rfl, rfl, rfl, rfl, ?_⟩
  · intro req r st h
    unfold sendResponse
    rw [h]
    show some (serializeResponse st (appendOwnHeaders req r)) = _
    rw [serialize_shape, appendOwnHeaders_body]
  · intro n hn
    simp only [List.mem_cons, List.not_mem_nil, or_false, not_or] at hn
    obtain ⟨n1, n2, n3, n4, n5⟩ := hn
    unfold statusText
    simp [n1, n2, n3, n4, n5]

theorem c1_send_layout_witness :
    statusText 404 = some "404 Not Found" ∧
    sendResponse { path := "/", headers := [], method := Method.get, body := [] }
        { status := 404, headers := [], body := [] } = some (
      utf8Encode ("HTTP/1.1 " ++ "404 Not Found" ++ "\r\n") ++
      headersBytes (appendOwnHeaders
        { path := "/", headers := [], method := Method.get, body := [] }
        { status := 404, headers := [], body := [] }).headers ++
      utf8Encode ("Content-Length: " ++ toString (List.length ([] : List Nat)) ++ "\r\n") ++
      utf8Encode "\r\n" ++
      ([] : List Nat)) :=
  ⟨by decide,
   c1_send_layout.1 { path := "/", headers := [], method := Method.get, body := [] }
     { status := 404, headers := [], body := [] } "404 Not Found" (by decide)⟩

/-- C2: for every string S, a GET request whose path is "/echo/" ++ S is
answered with status 200, a Content-Type: text/plain header, and a body
whose bytes are exactly the bytes of S, with no decoding applied. -/
theorem c2_echo (S : String) (req : Request) (cfg : Config) (fs : Fs)
    (_hm : req.method = Method.get) (hp : req.path = "/echo/" ++ S) :
    handleRequest req cfg fs =
      some ({ status := 200, headers := [("Content-Type", "text/plain")],
              body := utf8Encode S }, fs) :=
  handleRequest_echo S req cfg fs hp

theorem c2_echo_witness :
    handleRequest { path := "/echo/a/b", headers := [], method := Method.get, body := [] }
        { address := "127.0.0.1", port := 4221, static_files := none }
        { entries := fun _ => FsEntry.missing, writeOk := fun _ => false } =
      some ({ status := 200, headers := [("Content-Type", "text/plain")],
              body := utf8Encode "a/b" },
            { entries := fun _ => FsEntry.missing, writeOk := fun _ => false }) :=
  c2_echo "a/b" _ _ _ (by decide) (by decide)

/-- C3: with a static root configured, GET /files/E answers 404 when the
joined path root/E does not exist; 200 with Content-Type:
application/octet-stream and the file's bytes when reading succeeds
(i.e. the bytes are valid UTF-8, see C9); and 500 with a body describing
the error when the entry exists but reading fails — in each case the
connection completes normally (`some`). -/
theorem c3_files_get (E root : String) (req : Request) (cfg : Config) (fs : Fs)
    (hp : req.path = "/files/" ++ E) (hr : cfg.static_files = some root)
    (hm : req.method = Method.get) :
    (fs.entries (root ++ "/" ++ E) = FsEntry.missing →
      handleRequest req cfg fs =
        some ({ status := 404, headers := [], body := [] }, fs))
    ∧ (∀ bytes, fs.entries (root ++ "/" ++ E) = FsEntry.file bytes →
        validUtf8 bytes = true →
        handleRequest req cfg fs =
          some ({ status := 200,
                  headers := [("Content-Type", "application/octet-stream")],
                  body := bytes }, fs))
    ∧ (∀ msg, fs.entries (root ++ "/" ++ E) = FsEntry.unreadable msg →
        handleRequest req cfg fs =
          some ({ status := 500, headers := [],
                  body := utf8Encode ("failed to read file: " ++ msg) }, fs)) := by
  rw [handleRequest_files E req cfg fs root hp hr]
  unfold filesHandler
  rw [hm]
  refine ⟨?_, ?_, ?_⟩
  · intro h
    simp [tryExists, h]
  · intro bytes h hv
    simp [tryExists, h, readToString, hv]
  · intro msg h
    simp [tryExists, h, readToString]

theorem c3_files_get_witness :
    handleRequest { path := "/files/f.txt", headers := [], method := Method.get, body := [] }
        { address := "127.0.0.1", port := 4221, static_files := some "r" }
        { entries := fun p => if p = "r/f.txt" then FsEntry.file [104, 105] else FsEntry.missing,
          writeOk := fun _ => false } =
      some ({ status := 200,
              headers := [("Content-Type", "application/octet-stream")],
              body := [104, 105] },
            { entries := fun p => if p = "r/f.txt" then FsEntry.file [104, 105] else FsEntry.missing,
              writeOk := fun _ => false }) :=
  (c3_files_get "f.txt" "r"
    { path := "/files/f.txt", headers := [], method := Method.get, body := [] }
    { address := "127.0.0.1", port := 4221, static_files := some "r" }
    { entries := fun p => if p = "r/f.txt" then FsEntry.file [104, 105] else FsEntry.missing,
      writeOk := fun _ => false }
    (by decide) rfl rfl).2.1 [104, 105] rfl (by decide)

/-- C9: with a static root configured, GET /files/E for an existing,
readable file whose bytes are not valid UTF-8 answers 500 (the read goes
through read_to_string, which validates UTF-8), so the file's bytes are
never served. -/
theorem c9_files_get_invalid_utf8 (E root : String) (req : Request) (cfg : Config)
    (fs : Fs) (bytes : List Nat)
    (hp : req.path = "/files/" ++ E) (hr : cfg.static_files = some root)
    (hm : req.method = Method.get)
    (hf : fs.entries (root ++ "/" ++ E) = FsEntry.file bytes)
    (hv : validUtf8 bytes = false) :
    handleRequest req cfg fs =
      some ({ status := 500, headers := [],
              body := utf8Encode ("failed to read file: " ++ utf8ErrMsg) }, fs) := by
  rw [handleRequest_files E req cfg fs root hp hr]
  unfold filesHandler
  rw [hm]
  simp [tryExists, hf, readToString, hv]

theorem c9_files_get_invalid_utf8_witness :
    handleRequest { path := "/files/f.bin", headers := [], method := Method.get, body := [] }
        { address := "127.0.0.1", port := 4221, static_files := some "r" }
        { entries := fun p => if p = "r/f.bin" then FsEntry.file [255] else FsEntry.missing,
          writeOk := fun _ => false } =
      some ({ status := 500, headers := [],
              body := utf8Encode ("failed to read file: " ++ utf8ErrMsg) },
            { entries := fun p => if p = "r/f.bin" then FsEntry.file [255] else FsEntry.missing,
              writeOk := fun _ => false }) :=
  c9_files_get_invalid_utf8 "f.bin" "r" _ _ _ [255] (by decide) rfl rfl rfl (by decide)

/-- C4: with a static root configured, POST /files/E with a succeeding
write answers 201 with empty body and the joined path afterwards holds
exactly the request body bytes (other paths unchanged); a write failure
is a fatal connection error (`none`), not a 500 response. -/
theorem c4_files_post (E root : String) (req : Request) (cfg : Config) (fs : Fs)
    (hp : req.path = "/files/" ++ E) (hr : cfg.static_files = some root)
    (hm : req.method = Method.post) :
    (fs.writeOk (root ++ "/" ++ E) = true →
      ∃ fs2, handleRequest req cfg fs =
          some ({ status := 201, headers := [], body := [] }, fs2)
        ∧ fs2.entries (root ++ "/" ++ E) = FsEntry.file req.body
        ∧ ∀ p, p ≠ root ++ "/" ++ E → fs2.entries p = fs.entries p)
    ∧ (fs.writeOk (root ++ "/" ++ E) = false →
        handleRequest req cfg fs = none) := by
  rw [handleRequest_files E req cfg fs root hp hr]
  unfold filesHandler
  rw [hm]
  constructor
  · intro hw
    refine ⟨{ fs with entries := fun p =>
        if p = root ++ "/" ++ E then FsEntry.file req.body else fs.entries p }, ?_, ?_, ?_⟩
    · simp [hw]
    · simp
    · intro p hne
      simp [hne]
  · intro hw
    simp [hw]

theorem c4_files_post_witness :
    ∃ fs2, handleRequest
        { path := "/files/new.txt", headers := [("Content-Length", "3")],
          method := Method.post, body := [97, 98, 99] }
        { address := "127.0.0.1", port := 4221, static_files := some "r" }
        { entries := fun _ => FsEntry.missing, writeOk := fun _ => true } =
          some ({ status := 201, headers := [], body := [] }, fs2)
      ∧ fs2.entries ("r" ++ "/" ++ "new.txt") = FsEntry.file [97, 98, 99]
      ∧ ∀ p, p ≠ "r" ++ "/" ++ "new.txt" →
          fs2.entries p = FsEntry.missing :=
  (c4_files_post "new.txt" "r"
    { path := "/files/new.txt", headers := [("Content-Length", "3")],
      method := Method.post, body := [97, 98, 99] }
    { address := "127.0.0.1", port := 4221, static_files := some "r" }
    { entries := fun _ => FsEntry.missing, writeOk := fun _ => true }
    (by decide) rfl rfl).1 rfl

/-- C5: for every request and route, the final response headers carry
Content-Encoding: gzip exactly when the request's Accept-Encoding value,
split on ',' without trimming, contains the exact token "gzip" (the
header is added only when not already set, and no route sets it); the
body is never transformed. In particular "gzip, deflate" yields the
header and "deflate" alone does not. -/
theorem c5_gzip_negotiation :
    (∀ (req : Request) (cfg : Config) (fs : Fs) (r : ResponseData) (fs2 : Fs),
      handleRequest req cfg fs = some (r, fs2) →
        (getHeader (appendOwnHeaders req r).headers "Content-Encoding" = some "gzip" ↔
          (supportedEncodings req).contains "gzip" = true)
        ∧ (appendOwnHeaders req r).body = r.body)
    ∧ (∀ (req : Request) (r : ResponseData),
        (getHeader r.headers "Content-Encoding").isSome →
        appendOwnHeaders req r = r)
    ∧ (supportedEncodings
        { path := "/", headers := [("Accept-Encoding", "gzip, deflate")],
          method := Method.get, body := [] }).contains "gzip" = true
    ∧ (supportedEncodings
        { path := "/", headers := [("Accept-Encoding", "deflate")],
          method := Method.get, body := [] }).contains "gzip" = false := by
  refine ⟨?_, ?_, by decide, by decide⟩
  · intro req cfg fs r fs2 h
    have hce := handleRequest_no_ce req cfg fs r fs2 h
    refine ⟨⟨?_, ?_⟩, appendOwnHeaders_body req r⟩
    · intro hsome
      by_contra hng
      unfold appendOwnHeaders at hsome
      rw [if_neg hng, hce] at hsome
      cases hsome
    · intro hg
      unfold appendOwnHeaders
      rw [if_pos hg]
      exact getHeader_insertIfAbsent_self _ _ _ hce
  · intro req r hset
    exact appendOwnHeaders_of_set req r hset

theorem c5_gzip_negotiation_witness :
    (getHeader (appendOwnHeaders
        { path := "/", headers := [("Accept-Encoding", "gzip, deflate")],
          method := Method.get, body := [] }
        { status := 200, headers := [], body := [] }).headers "Content-Encoding" =
          some "gzip" ↔
      (supportedEncodings
        { path := "/", headers := [("Accept-Encoding", "gzip, deflate")],
          method := Method.get, body := [] }).contains "gzip" = true)
    ∧ (appendOwnHeaders
        { path := "/", headers := [("Accept-Encoding", "gzip, deflate")],
          method := Method.get, body := [] }
        { status := 200, headers := [], body := [] }).body = [] :=
  c5_gzip_negotiation.1
    { path := "/", headers := [("Accept-Encoding", "gzip, deflate")],
      method := Method.get, body := [] }
    { address := "127.0.0.1", port := 4221, static_files := none }
    { entries := fun _ => FsEntry.missing, writeOk := fun _ => false }
    { status := 200, headers := [], body := [] }
    { entries := fun _ => FsEntry.missing, writeOk := fun _ => false }
    rfl

/-- C6: request-line parsing fails exactly when the line does not split
on whitespace into exactly three tokens or the method token, lowercased,
is not get/post/put; on success the method is the corresponding
enumerated value and the path is the second token exactly as received. -/
theorem c6_request_line :
    (∀ m : String, parseMethod m = none ↔
        strToLower m ∉ (["get", "post", "put"] : List String))
    ∧ (∀ m : String,
        (strToLower m = "get" → parseMethod m = some Method.get)
        ∧ (strToLower m = "post" → parseMethod m = some Method.post)
        ∧ (strToLower m = "put" → parseMethod m = some Method.put))
    ∧ (∀ (line : String) (meth : Method) (path : String),
        parseRequestLine line = some (meth, path) ↔
          ∃ m v, splitWhitespace line = [m, path, v] ∧ parseMethod m = some meth)
    ∧ (∀ line : String, parseRequestLine line = none ↔
        ((splitWhitespace line).length ≠ 3 ∨
          ∃ m p v, splitWhitespace line = [m, p, v] ∧ parseMethod m = none)) := by
  refine ⟨?_, ?_, ?_, ?_⟩
  · intro m
    unfold parseMethod
    by_cases h1 : strToLower m = "get" <;>
      by_cases h2 : strToLower m = "post" <;>
        by_cases h3 : strToLower m = "put" <;>
          simp [h1, h2, h3]
  · intro m
    refine ⟨fun h => ?_, fun h => ?_, fun h => ?_⟩ <;> simp [parseMethod, h]
  · intro line meth path
    constructor
    · intro h
      unfold parseRequestLine at h
      rcases hsw : splitWhitespace line with _ | ⟨m, _ | ⟨p, _ | ⟨v, _ | ⟨w, rest⟩⟩⟩⟩ <;>
        rw [hsw] at h
      case cons.cons.cons.nil =>
        replace h : (parseMethod m).map (fun mt => (mt, p)) = some (meth, path) := h
        rcases hpm : parseMethod m with _ | mm <;> rw [hpm] at h
        · cases h
        · rw [show Option.map (fun mt => (mt, p)) (some mm) = some (mm, p) from rfl,
              Option.some.injEq, Prod.mk.injEq] at h
          obtain ⟨h1, h2⟩ := h
          exact ⟨m, v, by rw [h2], by rw [hpm, h1]⟩
      all_goals exact Option.noConfusion h
    · rintro ⟨m, v, hsw, hpm⟩
      unfold parseRequestLine
      rw [hsw]
      show (parseMethod m).map (fun mt => (mt, path)) = some (meth, path)
      rw [hpm]
      rfl
  · intro line
    constructor
    · intro h
      unfold parseRequestLine at h
      rcases hsw : splitWhitespace line with _ | ⟨m, _ | ⟨p, _ | ⟨v, _ | ⟨w, rest⟩⟩⟩⟩ <;>
        rw [hsw] at h
      case cons.cons.cons.nil =>
        right
        replace h : (parseMethod m).map (fun mt => (mt, p)) = none := h
        rcases hpm : parseMethod m with _ | mm
        · exact ⟨m, p, v, rfl, hpm⟩
        · rw [hpm] at h
          cases h
      all_goals
        left
        simp only [List.length_cons, List.length_nil]
        omega
    · intro h
      unfold parseRequestLine
      rcases h with hlen | ⟨m, p, v, hsw, hpm⟩
      · rcases hsw : splitWhitespace line with _ | ⟨m, _ | ⟨p, _ | ⟨v, _ | ⟨w, rest⟩⟩⟩⟩ <;>
          first
            | rfl
            | (exact absurd (by rw [hsw]; rfl) hlen)
      · rw [hsw]
        show (parseMethod m).map (fun mt => (mt, p)) = none
        rw [hpm]
        rfl

theorem c6_request_line_witness :
    parseRequestLine "GET /index.html HTTP/1.1\r\n" = some (Method.get, "/index.html") ∧
    parseRequestLine "GET /index.html" = none :=
  ⟨(c6_request_line.2.2.1 "GET /index.html HTTP/1.1\r\n" Method.get "/index.html").mpr
      ⟨"GET", "HTTP/1.1", by decide, by decide⟩,
   (c6_request_line.2.2.2 "GET /index.html").mpr (Or.inl (by decide))⟩

/-- C7: for POST/PUT the parser reads exactly contentLength bytes
(where the Content-Length header's absence or an unparsable value means
0), failing fatally when the stream is shorter; for GET no body bytes
are consumed. -/
theorem c7_body_read :
    (∀ (hs : Headers) (stream : List Nat),
        readBody Method.get hs stream = some ([], stream))
    ∧ (∀ (meth : Method) (hs : Headers) (stream : List Nat),
        meth = Method.post ∨ meth = Method.put →
        (contentLength hs ≤ stream.length →
          readBody meth hs stream =
            some (stream.take (contentLength hs), stream.drop (contentLength hs)) ∧
          (stream.take (contentLength hs)).length = contentLength hs)
        ∧ (stream.length < contentLength hs → readBody meth hs stream = none))
    ∧ (∀ hs : Headers, getHeader hs "Content-Length" = none → contentLength hs = 0)
    ∧ (∀ (hs : Headers) (v : String), getHeader hs "Content-Length" = some v →
        rustParseUsize v = none → contentLength hs = 0)
    ∧ (∀ (hs : Headers) (v : String) (n : Nat), getHeader hs "Content-Length" = some v →
        rustParseUsize v = some n → contentLength hs = n) := by
  refine ⟨fun hs stream => rfl, ?_, ?_, ?_, ?_⟩
  · intro meth hs stream hm
    constructor
    · intro hle
      constructor
      · unfold readBody
        rw [if_pos hm, if_pos hle]
      · simp only [List.length_take]
        omega
    · intro hlt
      unfold readBody
      rw [if_pos hm, if_neg (by omega)]
  · intro hs h
    unfold contentLength
    rw [h]
  · intro hs v h hp
    unfold contentLength
    rw [h]
    show (rustParseUsize v).getD 0 = 0
    rw [hp]
    rfl
  · intro hs v n h hp
    unfold contentLength
    rw [h]
    show (rustParseUsize v).getD 0 = n
    rw [hp]
    rfl

theorem c7_body_read_witness :
    readBody Method.post [("Content-Length", "3")] [1, 2, 3, 4] =
        some ([1, 2, 3], [4]) ∧
    (List.take (contentLength [("Content-Length", "3")]) [1, 2, 3, 4]).length =
        contentLength [("Content-Length", "3")] :=
  ((c7_body_read.2.1 Method.post [("Content-Length", "3")] [1, 2, 3, 4]
      (Or.inl rfl)).1 (by decide))

theorem headersBytes_eq_headerLine (l : Headers) :
    headersBytes l = l.foldr (fun p acc => utf8Encode (headerLine p) ++ acc) [] := by
  induction l with
  | nil => rfl
  | cons a rest ih =>
    obtain ⟨n, v⟩ := a
    simp only [headersBytes, headerLine, ih, List.foldr_cons]

theorem sendResponse_eq_withOrder (req : Request) (r : ResponseData) :
    sendResponse req r =
      sendResponseWithOrder (appendOwnHeaders req r) (appendOwnHeaders req r).headers := by
  have hst : (appendOwnHeaders req r).status = r.status := by
    unfold appendOwnHeaders
    split <;> rfl
  unfold sendResponse sendResponseWithOrder serializeResponse
  simp only [hst, appendOwnHeaders_body]

theorem handleRequest_none_root_pair (req : Request) (cfgA cfgB : Config)
    (fsA fsB : Fs) (hA : cfgA.static_files = none) (hB : cfgB.static_files = none) :
    ∃ r : ResponseData,
      handleRequest req cfgA fsA = some (r, fsA)
      ∧ handleRequest req cfgB fsB = some (r, fsB)
      ∧ (statusText r.status).isSome := by
  rw [handleRequest_none_root req cfgA fsA hA, handleRequest_none_root req cfgB fsB hB]
  by_cases h1 : req.path = "/"
  · exact ⟨{ status := 200, headers := [], body := [] },
      by simp [h1], by simp [h1], rfl⟩
  by_cases h2 : req.path = "/user-agent"
  · exact ⟨{ status := 200, headers := [("Content-Type", "text/plain")],
             body := utf8Encode ((getHeader req.headers "User-Agent").getD "") },
      by simp [h1, h2], by simp [h1, h2], rfl⟩
  by_cases h3 : strStartsWith req.path "/echo/" = true
  · obtain ⟨payload, hpl⟩ := Option.isSome_iff_exists.mp (stripPref_some _ _ h3)
    exact ⟨{ status := 200, headers := [("Content-Type", "text/plain")],
             body := utf8Encode payload },
      by simp [h1, h2, h3, hpl], by simp [h1, h2, h3, hpl], rfl⟩
  by_cases h4 : strStartsWith req.path "/files/" = true
  · exact ⟨{ status := 404, headers := [], body := [] },
      by simp [h1, h2, h3, h4], by simp [h1, h2, h3, h4], rfl⟩
  · exact ⟨{ status := 404, headers := [], body := [] },
      by simp [h1, h2, h3, h4], by simp [h1, h2, h3, h4], rfl⟩

/-- C8 counterexample: the response bytes are not a function of the
request alone. For GET /echo/x with Accept-Encoding: gzip the final
header map holds two bindings (Content-Type and Content-Encoding); a
connection's fresh HashMap may iterate them in either order, and the two
orders — both permutations of the same map — serialize to different byte
sequences, so byte-identical responses across two connections are not
guaranteed. -/
theorem c8_byte_identity_counterexample :
    handleRequest
        { path := "/echo/x", headers := [("Accept-Encoding", "gzip")],
          method := Method.get, body := [] }
        { address := "127.0.0.1", port := 4221, static_files := none }
        { entries := fun _ => FsEntry.missing, writeOk := fun _ => false } =
      some ({ status := 200, headers := [("Content-Type", "text/plain")],
              body := utf8Encode "x" },
            { entries := fun _ => FsEntry.missing, writeOk := fun _ => false })
    ∧ List.Perm
        [("Content-Type", "text/plain"), ("Content-Encoding", "gzip")]
        ((appendOwnHeaders
          { path := "/echo/x", headers := [("Accept-Encoding", "gzip")],
            method := Method.get, body := [] }
          { status := 200, headers := [("Content-Type", "text/plain")],
            body := utf8Encode "x" }).headers)
    ∧ List.Perm
        [("Content-Encoding", "gzip"), ("Content-Type", "text/plain")]
        ((appendOwnHeaders
          { path := "/echo/x", headers := [("Accept-Encoding", "gzip")],
            method := Method.get, body := [] }
          { status := 200, headers := [("Content-Type", "text/plain")],
            body := utf8Encode "x" }).headers)
    ∧ respondBytesWithOrder
        { path := "/echo/x", headers := [("Accept-Encoding", "gzip")],
          method := Method.get, body := [] }
        { address := "127.0.0.1", port := 4221, static_files := none }
        { entries := fun _ => FsEntry.missing, writeOk := fun _ => false }
        [("Content-Type", "text/plain"), ("Content-Encoding", "gzip")] ≠
      respondBytesWithOrder
        { path := "/echo/x", headers := [("Accept-Encoding", "gzip")],
          method := Method.get, body := [] }
        { address := "127.0.0.1", port := 4221, static_files := none }
        { entries := fun _ => FsEntry.missing, writeOk := fun _ => false }
        [("Content-Encoding", "gzip"), ("Content-Type", "text/plain")] :=
  ⟨rfl, List.Perm.refl _,
   List.Perm.swap ("Content-Type", "text/plain") ("Content-Encoding", "gzip") [],
   by decide⟩

/-- C8 (amended): with an unconfigured static-file root, the response
map (status, headers, body) is a deterministic function of the request
alone — identical on two connections whatever their configs and
filesystem environments — and a response is always produced; the
serialized bytes additionally depend on the per-connection header
iteration order, which the source leaves unspecified: for any two
iteration orders of that map, the two responses have the identical
status line, the identical Content-Length and body bytes, and the same
header lines up to order — byte-identical except possibly for the order
of the header lines. -/
theorem c8_deterministic_up_to_header_order (req : Request) (cfgA cfgB : Config)
    (fsA fsB : Fs) (hA : cfgA.static_files = none) (hB : cfgB.static_files = none) :
    ∃ r : ResponseData,
      handleRequest req cfgA fsA = some (r, fsA)
      ∧ handleRequest req cfgB fsB = some (r, fsB)
      ∧ ∀ orderA orderB : Headers,
          List.Perm orderA (appendOwnHeaders req r).headers →
          List.Perm orderB (appendOwnHeaders req r).headers →
          List.Perm (orderA.map headerLine) (orderB.map headerLine)
          ∧ ∃ st : String, statusText r.status = some st
            ∧ respondBytesWithOrder req cfgA fsA orderA = some
                (utf8Encode ("HTTP/1.1 " ++ st ++ "\r\n") ++
                 headersBytes orderA ++
                 (if r.body.isEmpty then utf8Encode "Content-Length: 0\r\n\r\n"
                  else utf8Encode ("Content-Length: " ++ toString r.body.length ++ "\r\n\r\n") ++
                    r.body))
            ∧ respondBytesWithOrder req cfgB fsB orderB = some
                (utf8Encode ("HTTP/1.1 " ++ st ++ "\r\n") ++
                 headersBytes orderB ++
                 (if r.body.isEmpty then utf8Encode "Content-Length: 0\r\n\r\n"
                  else utf8Encode ("Content-Length: " ++ toString r.body.length ++ "\r\n\r\n") ++
                    r.body)) := by
  obtain ⟨r, h1, h2, hst⟩ := handleRequest_none_root_pair req cfgA cfgB fsA fsB hA hB
  refine ⟨r, h1, h2, ?_⟩
  intro oA oB pA pB
  obtain ⟨st, hst2⟩ := Option.isSome_iff_exists.mp hst
  have hsta : (appendOwnHeaders req r).status = r.status := by
    unfold appendOwnHeaders
    split <;> rfl
  refine ⟨List.Perm.map headerLine (pA.trans pB.symm), st, hst2, ?_, ?_⟩
  · unfold respondBytesWithOrder
    rw [h1]
    show sendResponseWithOrder (appendOwnHeaders req r) oA = _
    unfold sendResponseWithOrder
    rw [hsta, hst2, appendOwnHeaders_body]
  · unfold respondBytesWithOrder
    rw [h2]
    show sendResponseWithOrder (appendOwnHeaders req r) oB = _
    unfold sendResponseWithOrder
    rw [hsta, hst2, appendOwnHeaders_body]

theorem c8_deterministic_up_to_header_order_witness :
    ∃ r : ResponseData,
      handleRequest
          { path := "/echo/x", headers := [("Accept-Encoding", "gzip")],
            method := Method.get, body := [] }
          { address := "127.0.0.1", port := 4221, static_files := none }
          { entries := fun _ => FsEntry.missing, writeOk := fun _ => false } =
        some (r, { entries := fun _ => FsEntry.missing, writeOk := fun _ => false })
      ∧ handleRequest
          { path := "/echo/x", headers := [("Accept-Encoding", "gzip")],
            method := Method.get, body := [] }
          { address := "0.0.0.0", port := 80, static_files := none }
          { entries := fun _ => FsEntry.file [0], writeOk := fun _ => true } =
        some (r, { entries := fun _ => FsEntry.file [0], writeOk := fun _ => true })
      ∧ ∀ orderA orderB : Headers,
          List.Perm orderA
            (appendOwnHeaders
              { path := "/echo/x", headers := [("Accept-Encoding", "gzip")],
                method := Method.get, body := [] } r).headers →
          List.Perm orderB
            (appendOwnHeaders
              { path := "/echo/x", headers := [("Accept-Encoding", "gzip")],
                method := Method.get, body := [] } r).headers →
          List.Perm (orderA.map headerLine) (orderB.map headerLine)
          ∧ ∃ st : String, statusText r.status = some st
            ∧ respondBytesWithOrder
                { path := "/echo/x", headers := [("Accept-Encoding", "gzip")],
                  method := Method.get, body := [] }
                { address := "127.0.0.1", port := 4221, static_files := none }
                { entries := fun _ => FsEntry.missing, writeOk := fun _ => false }
                orderA = some
                (utf8Encode ("HTTP/1.1 " ++ st ++ "\r\n") ++
                 headersBytes orderA ++
                 (if r.body.isEmpty then utf8Encode "Content-Length: 0\r\n\r\n"
                  else utf8Encode ("Content-Length: " ++ toString r.body.length ++ "\r\n\r\n") ++
                    r.body))
            ∧ respondBytesWithOrder
                { path := "/echo/x", headers := [("Accept-Encoding", "gzip")],
                  method := Method.get, body := [] }
                { address := "0.0.0.0", port := 80, static_files := none }
                { entries := fun _ => FsEntry.file [0], writeOk := fun _ => true }
                orderB = some
                (utf8Encode ("HTTP/1.1 " ++ st ++ "\r\n") ++
                 headersBytes orderB ++
                 (if r.body.isEmpty then utf8Encode "Content-Length: 0\r\n\r\n"
                  else utf8Encode ("Content-Length: " ++ toString r.body.length ++ "\r\n\r\n") ++
                    r.body)) :=
  c8_deterministic_up_to_header_order
    { path := "/echo/x", headers := [("Accept-Encoding", "gzip")],
      method := Method.get, body := [] }
    { address := "127.0.0.1", port := 4221, static_files := none }
    { address := "0.0.0.0", port := 80, static_files := none }
    { entries := fun _ => FsEntry.missing, writeOk := fun _ => false }
    { entries := fun _ => FsEntry.file [0], writeOk := fun _ => true }
    rfl rfl

/-- C10: an I/O error while reading a header line ends the header loop
silently, exactly as end-of-input does — the headers collected so far
are kept, the result is not a parse failure, and (for a GET request
line) a request is still produced. -/
theorem c10_header_io_error :
    (∀ (acc : Headers) (rest : List LineRead),
        readHeadersAux acc (LineRead.ioError :: rest) =
          readHeadersAux acc (LineRead.eof :: rest))
    ∧ (∀ (acc : Headers) (rest : List LineRead),
        readHeadersAux acc (LineRead.ioError :: rest) = some (acc, rest))
    ∧ (∀ (l path : String) (rest : List LineRead) (bytes : List Nat),
        parseRequestLine l = some (Method.get, path) →
        parseRequest (LineRead.line l :: LineRead.ioError :: rest) bytes =
          some { path := path, headers := [], method := Method.get, body := [] }) := by
  refine ⟨fun acc rest => rfl, fun acc rest => rfl, ?_⟩
  intro l path rest bytes h
  have e : parseRequest (LineRead.line l :: LineRead.ioError :: rest) bytes =
      match parseRequestLine l with
      | none => none
      | some (meth, p) =>
        match readBody meth [] bytes with
        | none => none
        | some (body, _) => some { path := p, headers := [], method := meth, body := body } := rfl
  rw [e, h]
  rfl

theorem c10_header_io_error_witness :
    parseRequest [LineRead.line "GET /x HTTP/1.1\r\n", LineRead.ioError] [7] =
      some { path := "/x", headers := [], method := Method.get, body := [] } :=
  c10_header_io_error.2.2 "GET /x HTTP/1.1\r\n" "/x" [] [7] (by decide)
